import Mathlib

/-!
Formal model of the iblrig task scripts.

Shallow embedding of the parts of the repository relevant to the session
parameter derivation (adaptive reward / gain), the rotary-encoder threshold
setup, the settings / code-archival pipeline (`iblrig/iotasks.py` and
`tasks/_iblrig_tasks_trainingChoiceWorld/session_params.py`), and the state
machines declared by the habituation and passive task scripts.

Python floats are modelled as exact rationals; `np.pi` is an arbitrary
nonzero rational parameter, so the algebraic identities proved here are the
exact-arithmetic content of the float code.
-/

namespace Iblrig

/-! ## Rotary encoder (`session_params.py`, class `MyRotaryEncoder`) -/

/-- State of a `MyRotaryEncoder` object after `__init__`.  Field names follow
the Python attributes. -/
structure MyRotaryEncoder where
  all_thresholds : List ℚ
  wheel_perim : ℚ
  deg_mm : ℚ
  mm_deg : ℚ
  factor : ℚ
  SET_THRESHOLDS : List ℚ
  ENABLE_THRESHOLDS : List Bool
deriving DecidableEq

/-- The `while len < 8: append(False)` padding loop of `MyRotaryEncoder.__init__`:
appending `False` until the list has at least 8 entries. -/
def padEnable (l : List Bool) : List Bool :=
  l ++ List.replicate (8 - l.length) false

/-- `MyRotaryEncoder.__init__(all_thresholds, gain)` from `session_params.py`.
`pi` stands for `np.pi`. -/
def MyRotaryEncoder.init (pi : ℚ) (all_thresholds : List ℚ) (gain : ℚ) :
    MyRotaryEncoder :=
  let wheel_perim : ℚ := 31 * 2 * pi
  let deg_mm : ℚ := 360 / wheel_perim
  let mm_deg : ℚ := wheel_perim / 360
  let factor : ℚ := 1 / (mm_deg * gain)
  let set_thr : List ℚ := all_thresholds.map (fun x => x * factor)
  let enable_thr : List Bool := set_thr.map (fun x => if x ≠ 0 then true else false)
  ⟨all_thresholds, wheel_perim, deg_mm, mm_deg, factor, set_thr, padEnable enable_thr⟩

/-! ## Adaptive reward and gain rules
(`session_params.py`, `session_param_handler._init_reward` / `_init_stim_gain`) -/

/-- One line of the previous session's data file, as used by the adaptive
rules (`trial_data[-1]` in `_load_last_trial`).  Only the fields the rules
read are modelled. -/
structure TrialRecord where
  trial_num : ℤ
  reward_valve_time : ℚ
  reward_calibration : ℚ
deriving DecidableEq

/-- The task-settings / handler fields read by `_init_reward` and
`_init_stim_gain`.  `LAST_TRIAL_DATA` is `none` when `_load_last_trial`
returned `None` (no previous data file). -/
structure AdaptiveParams where
  ADAPTIVE_REWARD : Bool
  REWARD_AMOUNT : ℚ
  AR_INIT_VALUE : ℚ
  ADAPTIVE_GAIN : Bool
  STIM_GAIN : ℚ
  AG_MIN_VALUE : ℚ
  AG_INIT_VALUE : ℚ
  CALIBRATION_VALUE : ℚ
  LAST_TRIAL_DATA : Option TrialRecord
deriving DecidableEq

/-- `session_param_handler._init_reward`.  The Python `except IOError` branch
(falling back to `CALIBRATION_VALUE`) is unreachable: a missing dict key
raises `KeyError`, not `IOError`, so the `try` body's quotient is always the
result when a record exists. -/
def init_reward (p : AdaptiveParams) : ℚ :=
  if ¬ p.ADAPTIVE_REWARD then p.REWARD_AMOUNT
  else
    match p.LAST_TRIAL_DATA with
    | none => p.AR_INIT_VALUE
    | some t => t.reward_valve_time / t.reward_calibration

/-- `session_param_handler._init_stim_gain`. -/
def init_stim_gain (p : AdaptiveParams) : ℚ :=
  if ¬ p.ADAPTIVE_GAIN then p.STIM_GAIN
  else
    match p.LAST_TRIAL_DATA with
    | some t => if t.trial_num ≥ 200 then p.AG_MIN_VALUE else p.AG_INIT_VALUE
    | none => p.AG_INIT_VALUE

/-! ## Session order bookkeeping (`iotasks.load_session_order_idx`) -/

/-- Previous-session settings dict, restricted to the keys
`load_session_order_idx` reads.  `SESSION_ORDER = none` models the key being
absent, `some none` models the key mapping to Python `None`. -/
structure LastSettings where
  SESSION_ORDER : Option (Option (List ℕ))
  SESSION_IDX : ℕ
deriving DecidableEq

/-- `iotasks.load_session_order_idx(last_settings_data)`.  The call to
`misc.draw_session_order()` (a file not among the sources) is modelled by
passing the freshly drawn order in as the parameter `draw`; the branching
logic on the previous settings is translated from the source. -/
def load_session_order_idx (draw : List ℕ) (last : Option LastSettings) :
    List ℕ × ℕ :=
  match last with
  | none => (draw, 0)
  | some s =>
    match s.SESSION_ORDER with
    | none => (draw, 0)
    | some none => (draw, 0)
    | some (some order) => (order, s.SESSION_IDX + 1)

/-! ## Pybpod user-settings deserialization
(`iotasks.deserialize_pybpod_user_settings` and
`session_param_handler.deserialize_session_user_settings`) -/

/-- The pybpod user-settings fields read by the deserializers, before
deserialization.  `PYBPOD_SUBJECTS` is the raw list of strings;
`PYBPOD_SUBJECT_EXTRA` is the raw string. -/
structure UserSettings where
  PYBPOD_CREATOR : String
  PYBPOD_USER_EXTRA : String
  PYBPOD_SUBJECTS : List String
  PYBPOD_SUBJECT_EXTRA : String
deriving DecidableEq

/-- Either a list of parsed values or a single parsed value: Python leaves
`PYBPOD_SUBJECT_EXTRA` as a list unless it has exactly one element. -/
inductive ListOrOne (α : Type) where
  | many (xs : List α)
  | one (x : α)
deriving DecidableEq

/-- The fields after deserialization: `PYBPOD_SUBJECTS` has been replaced by
the single parsed subject. -/
structure UserSettingsD (α : Type) where
  PYBPOD_CREATOR : α
  PYBPOD_USER_EXTRA : α
  PYBPOD_SUBJECTS : α
  PYBPOD_SUBJECT_EXTRA : ListOrOne α
deriving DecidableEq

/-- The parsed subjects list of `deserialize_pybpod_user_settings`:
`[json.loads(x.replace("'", '"')) for x in sph.PYBPOD_SUBJECTS]`.
`loads` stands for `json.loads` (an external library call); `"\x27"` is the
single-quote character. -/
def parsedSubjects {α : Type} (loads : String → α) (subjects : List String) :
    List α :=
  subjects.map (fun x => loads (x.replace "\x27" "\""))

/-- The parsed subject-extra list:
`[json.loads(x) for x in sph.PYBPOD_SUBJECT_EXTRA[1:-1].split('","')]`. -/
def parsedSubjectExtra {α : Type} (loads : String → α) (extra : String) :
    List α :=
  (((extra.drop 1).dropRight 1).splitOn "\",\"").map loads

/-- Collapse a one-element list to its element, as both deserializers do for
`PYBPOD_SUBJECT_EXTRA`. -/
def collapseOne {α : Type} (xs : List α) : ListOrOne α :=
  match xs with
  | [x] => ListOrOne.one x
  | _ => ListOrOne.many xs

/-- `iotasks.deserialize_pybpod_user_settings(sph)`: `json.loads` is passed in
as `loads`; raising `IOError` is modelled as `Except.error ()`. -/
def deserialize_pybpod_user_settings {α : Type} (loads : String → α)
    (sph : UserSettings) : Except Unit (UserSettingsD α) :=
  let creator := loads sph.PYBPOD_CREATOR
  let user_extra := loads sph.PYBPOD_USER_EXTRA
  match parsedSubjects loads sph.PYBPOD_SUBJECTS with
  | [s] =>
    Except.ok ⟨creator, user_extra, s,
      collapseOne (parsedSubjectExtra loads sph.PYBPOD_SUBJECT_EXTRA)⟩
  | _ => Except.error ()

/-- `session_param_handler.deserialize_session_user_settings`: textually the
same computation as `iotasks.deserialize_pybpod_user_settings`, acting on the
handler's own attributes. -/
def deserialize_session_user_settings {α : Type} (loads : String → α)
    (sph : UserSettings) : Except Unit (UserSettingsD α) :=
  let creator := loads sph.PYBPOD_CREATOR
  let user_extra := loads sph.PYBPOD_USER_EXTRA
  match parsedSubjects loads sph.PYBPOD_SUBJECTS with
  | [s] =>
    Except.ok ⟨creator, user_extra, s,
      collapseOne (parsedSubjectExtra loads sph.PYBPOD_SUBJECT_EXTRA)⟩
  | _ => Except.error ()

/-! ## Settings file persistence (`iotasks.save_session_settings`)

`save_session_settings` opens `sph.SETTINGS_FILE_PATH` in append mode and
writes `json.dumps(sph)` plus a newline, then compares
`json.loads(json.dumps(sph))` against `raw.load_settings(sph.SESSION_FOLDER)`.
The file is modelled as the list of JSON documents it holds (each `write`
appends one document); `raw.load_settings` (from the external ibllib library)
reads the whole settings file with `json.load`, which succeeds exactly when
the file holds one JSON document. -/

/-- The append-mode write of `save_session_settings`: the new document is
appended after whatever the file already held. -/
def save_session_settings_write (prior : List String) (doc : String) :
    List String :=
  prior ++ [doc]

/-- Models ibllib `raw.load_settings` / `json.load`: parsing the settings file
succeeds, returning its document, exactly when the file holds a single JSON
document; with extra data `json.load` raises and no settings are produced. -/
def load_settings_file (docs : List String) : Option String :=
  match docs with
  | [d] => some d
  | _ => none

/-- The `assert(save_this == settings)` at the end of `save_session_settings`:
the settings loaded back from the file equal the document just saved. -/
def save_session_settings_assertHolds (prior : List String) (doc : String) :
    Prop :=
  load_settings_file (save_session_settings_write prior doc) = some doc

/-! ## Code archival (`iotasks.save_task_code`,
`session_param_handler._save_task_code`)

The session raw-data folder is modelled as a list of directory entries, each
a plain file (name and content) or a subdirectory (name and the relative
paths / contents of the files under it, as `os.walk` enumerates them). -/

/-- Content of a plain file: ordinary text, or the byte content of a zip
archive, represented by its list of (archive name, content) members. -/
inductive FileContent where
  | text (s : String)
  | zipData (entries : List (String × String))
deriving DecidableEq

/-- One entry of the session raw-data folder. -/
inductive FsEntry where
  | file (name : String) (content : FileContent)
  | dir (name : String) (files : List (String × String))
deriving DecidableEq

/-- Name of a folder entry. -/
def FsEntry.name : FsEntry → String
  | .file n _ => n
  | .dir n _ => n

/-- `os.path.isdir` on a folder entry. -/
def FsEntry.isDir : FsEntry → Bool
  | .file _ _ => false
  | .dir _ _ => true

/-- The subdirectories of the folder with their contents, in `os.listdir`
order (the list comprehension filtering on `os.path.isdir`). -/
def listDirs (fs : List FsEntry) : List (String × List (String × String)) :=
  fs.filterMap (fun e =>
    match e with
    | .dir n files => some (n, files)
    | .file _ _ => none)

/-- `zipdir(path, ziph)`: walks one directory and records each of its files
under the archive name `dirname/relpath` (the path relative to `path/'..'`). -/
def zipdir (d : String × List (String × String)) : List (String × String) :=
  d.2.map (fun f => (d.1 ++ "/" ++ f.1, f.2))

/-- The members written by `zipit(dir_list, zip_name)`: every file of every
directory of the list, in order. -/
def zipit (dirs : List (String × List (String × String))) :
    List (String × String) :=
  dirs.flatMap zipdir

/-- Creating a file (as `zipfile.ZipFile(zip_name, 'w')` does): if an entry of
that name exists it is overwritten, otherwise the file is added to the
folder. -/
def writeFile (fs : List FsEntry) (nm : String) (c : FileContent) :
    List FsEntry :=
  if fs.any (fun e => e.name = nm) then
    fs.map (fun e => if e.name = nm then FsEntry.file nm c else e)
  else
    fs ++ [FsEntry.file nm c]

/-- The `[shutil.rmtree(x) for x in ...]` step: remove the subdirectories
whose names are in `names`. -/
def removeDirs (fs : List FsEntry) (names : List String) : List FsEntry :=
  fs.filter (fun e => ¬ (e.isDir ∧ e.name ∈ names))

/-- The zip archive name used by `iotasks.save_task_code`. -/
def taskCodeZipName : String := "_iblrig_taskCodeFiles.raw.zip"

/-- The zip archive name used by `session_param_handler._save_task_code`. -/
def codeFilesZipName : String := "_iblrig_codeFiles.raw.zip"

/-- `iotasks.save_task_code(sph)` acting on the session raw-data folder:
list the subdirectories, zip them into `_iblrig_taskCodeFiles.raw.zip`
inside the folder, then `rmtree` each listed subdirectory. -/
def save_task_code (fs : List FsEntry) : List FsEntry :=
  let behavior_code_files := listDirs fs
  let fs1 := writeFile fs taskCodeZipName
    (FileContent.zipData (zipit behavior_code_files))
  removeDirs fs1 (behavior_code_files.map Prod.fst)

/-- `shutil.copytree(src, dst)`: the destination directory (which must not
yet exist) is created with the source's files. -/
def copytree (fs : List FsEntry) (nm : String)
    (files : List (String × String)) : List FsEntry :=
  fs ++ [FsEntry.dir nm files]

/-- `session_param_handler._save_task_code`: copy the behavioral task code
folder (named after `PYBPOD_PROTOCOL`) into the session raw-data folder, zip
every subdirectory into `_iblrig_codeFiles.raw.zip`, then `rmtree` each
zipped subdirectory. -/
def sph_save_task_code (protocol : String) (taskFiles : List (String × String))
    (fs : List FsEntry) : List FsEntry :=
  let fs0 := copytree fs protocol taskFiles
  let folders_to_zip := listDirs fs0
  let fs1 := writeFile fs0 codeFilesZipName
    (FileContent.zipData (zipit folders_to_zip))
  removeDirs fs1 (folders_to_zip.map Prod.fst)

/-- Content of the first plain file of the folder with the given name, if
any. -/
def lookupFile (fs : List FsEntry) (nm : String) : Option FileContent :=
  (fs.filterMap (fun e =>
    match e with
    | .file n c => if n = nm then some c else none
    | .dir _ _ => none)).head?

/-! ## State machines declared by the task scripts -/

/-- One `sma.add_state(...)` call: the state's name, timer, transition table
(`state_change_conditions`) and output actions. -/
structure SmaState where
  state_name : String
  state_timer : ℚ
  state_change_conditions : List (String × String)
  output_actions : List (String × ℤ)
deriving DecidableEq

/-- Serial message index loaded for stopping the stimulus
(`re_stop_stim = rotary_encoder_reset + 1`). -/
def re_stop_stim : ℤ := 2

/-- Serial message index loaded for showing the stimulus. -/
def re_show_stim : ℤ := 3

/-- Serial message index loaded for centering the stimulus. -/
def re_show_center : ℤ := 4

/-- The per-trial values the habituation task reads from its
`TrialParamHandler` (`trial_params.py` is not among the sources; the state
machine uses these values opaquely). -/
structure TrialParams where
  delay_to_stim_center : ℚ
  reward_valve_time : ℚ
  iti : ℚ
  out_tone : String × ℤ
deriving DecidableEq

/-- The five `sma.add_state` calls of one trial of
`_iblrig_tasks_habituationChoiceWorld.py`, in program order. -/
def habituation_sma (tph : TrialParams) : List SmaState :=
  [⟨"trial_start", 1, [("Tup", "stim_on")], [("Serial1", re_stop_stim)]⟩,
   ⟨"stim_on", tph.delay_to_stim_center, [("Tup", "stim_center")],
     [("Serial1", re_show_stim), tph.out_tone]⟩,
   ⟨"stim_center", 1 / 2, [("Tup", "reward")], [("Serial1", re_show_center)]⟩,
   ⟨"reward", tph.reward_valve_time, [("Tup", "iti")], [("Valve1", 255)]⟩,
   ⟨"iti", tph.iti, [("Tup", "exit")], []⟩]

/-- The single-state machine built by `do_valve_click(bpod, reward_valve_time)`
in `_iblrig_tasks_passiveChoiceWorld.py`. -/
def do_valve_click_sma (reward_valve_time : ℚ) : List SmaState :=
  [⟨"valve_open", reward_valve_time, [("Tup", "exit")],
    [("Valve1", 255), ("BNC1", 255)]⟩]

/-- The single-state machine built by `do_bpod_sound(bpod, sound_msg)` in
`_iblrig_tasks_passiveChoiceWorld.py`. -/
def do_bpod_sound_sma (sound_msg : ℤ) : List SmaState :=
  [⟨"play_tone", 0, [("BNC2Low", "exit")], [("Serial3", sound_msg)]⟩]

/-- Every state machine declared by the task scripts among the sources: the
habituation trial machine and the passive task's valve-click and bpod-sound
machines. -/
def declared_state_machines (tph : TrialParams) (reward_valve_time : ℚ)
    (sound_msg : ℤ) : List (List SmaState) :=
  [habituation_sma tph, do_valve_click_sma reward_valve_time,
   do_bpod_sound_sma sound_msg]

/-- The property claimed of every declared state machine: between 2 and 5
named states, and every state-change condition keyed by the timer-expiry
event `Tup`. -/
def twoToFiveAllTup (m : List SmaState) : Prop :=
  (2 ≤ m.length ∧ m.length ≤ 5) ∧
    ∀ s ∈ m, ∀ c ∈ s.state_change_conditions, c.1 = "Tup"

instance (m : List SmaState) : Decidable (twoToFiveAllTup m) := by
  unfold twoToFiveAllTup
  infer_instance

/-- Calls the habituation main loop makes on the `bpod` object for one trial,
after building the state machine. -/
inductive BpodOp where
  | send_state_machine (sma : List SmaState)
  | run_state_machine (sma : List SmaState)
deriving DecidableEq

/-- One iteration of the habituation main loop: build the five-state machine,
send it to the Bpod device, then run it. -/
def habituation_trial (tph : TrialParams) : List BpodOp :=
  [BpodOp.send_state_machine (habituation_sma tph),
   BpodOp.run_state_machine (habituation_sma tph)]

/-- `for i in range(sph.NTRIALS)` of the habituation task: trial `i` uses the
trial parameters produced by the `i`-th `tph.next_trial()` call (passed in as
`tph_for`), builds a fresh state machine and sends then runs it. -/
def habituation_main_loop (ntrials : ℕ) (tph_for : ℕ → TrialParams) :
    List (List BpodOp) :=
  (List.range ntrials).map (fun i => habituation_trial (tph_for i))

/-! ## Folder lemmas for the archival pipeline -/

theorem lookupFile_cons_file_eq (n : String) (c : FileContent)
    (fs : List FsEntry) : lookupFile (FsEntry.file n c :: fs) n = some c := by
  simp [lookupFile, List.filterMap_cons]

theorem lookupFile_cons_dir (n : String) (files : List (String × String))
    (fs : List FsEntry) (nm : String) :
    lookupFile (FsEntry.dir n files :: fs) nm = lookupFile fs nm := by
  simp [lookupFile, List.filterMap_cons]

theorem lookupFile_cons_ne {e : FsEntry} (fs : List FsEntry) {nm : String}
    (h : e.name ≠ nm) : lookupFile (e :: fs) nm = lookupFile fs nm := by
  cases e with
  | file n c =>
    simp only [FsEntry.name] at h
    simp [lookupFile, List.filterMap_cons, h]
  | dir n files => exact lookupFile_cons_dir n files fs nm

theorem lookupFile_map_overwrite (nm : String) (c : FileContent)
    (fs : List FsEntry) (hex : ∃ e ∈ fs, e.name = nm) :
    lookupFile (fs.map (fun e =>
      if e.name = nm then FsEntry.file nm c else e)) nm = some c := by
  induction fs with
  | nil =>
    rcases hex with ⟨e, he, -⟩
    exact absurd he (List.not_mem_nil e)
  | cons e fs ih =>
    by_cases he : e.name = nm
    · simp only [List.map_cons, if_pos he]
      exact lookupFile_cons_file_eq nm c _
    · simp only [List.map_cons, if_neg he]
      rw [lookupFile_cons_ne _ he]
      apply ih
      rcases hex with ⟨a, ha, hna⟩
      rcases List.mem_cons.1 ha with rfl | ha2
      · exact absurd hna he
      · exact ⟨a, ha2, hna⟩

theorem lookupFile_append_new (nm : String) (c : FileContent)
    (fs : List FsEntry) (h : ∀ e ∈ fs, e.name ≠ nm) :
    lookupFile (fs ++ [FsEntry.file nm c]) nm = some c := by
  induction fs with
  | nil => exact lookupFile_cons_file_eq nm c []
  | cons e fs ih =>
    rw [List.cons_append, lookupFile_cons_ne _ (h e (List.mem_cons_self e fs))]
    exact ih (fun a ha => h a (List.mem_cons_of_mem e ha))

theorem lookupFile_writeFile_self (fs : List FsEntry) (nm : String)
    (c : FileContent) : lookupFile (writeFile fs nm c) nm = some c := by
  unfold writeFile
  split
  · rename_i hany
    apply lookupFile_map_overwrite
    rcases List.any_eq_true.1 hany with ⟨e, he, hp⟩
    exact ⟨e, he, of_decide_eq_true hp⟩
  · rename_i hany
    apply lookupFile_append_new
    intro e he hn
    exact hany (List.any_eq_true.2 ⟨e, he, decide_eq_true hn⟩)

theorem lookupFile_map_preserve (nm nmq : String) (c : FileContent)
    (h : nmq ≠ nm) (fs : List FsEntry) :
    lookupFile (fs.map (fun e =>
      if e.name = nm then FsEntry.file nm c else e)) nmq =
      lookupFile fs nmq := by
  induction fs with
  | nil => rfl
  | cons e fs ih =>
    by_cases he : e.name = nm
    · simp only [List.map_cons, if_pos he]
      rw [lookupFile_cons_ne _ (show (FsEntry.file nm c).name ≠ nmq from
        Ne.symm h)]
      rw [lookupFile_cons_ne _ (show e.name ≠ nmq from he ▸ Ne.symm h)]
      exact ih
    · simp only [List.map_cons, if_neg he]
      cases e with
      | file n c2 =>
        by_cases hn : n = nmq
        · subst hn
          rw [lookupFile_cons_file_eq, lookupFile_cons_file_eq]
        · rw [lookupFile_cons_ne _ (show (FsEntry.file n c2).name ≠ nmq from hn)]
          rw [lookupFile_cons_ne _ (show (FsEntry.file n c2).name ≠ nmq from hn)]
          exact ih
      | dir n files =>
        rw [lookupFile_cons_dir, lookupFile_cons_dir]
        exact ih

theorem lookupFile_append_file_ne (nm nmq : String) (c : FileContent)
    (h : nmq ≠ nm) (fs : List FsEntry) :
    lookupFile (fs ++ [FsEntry.file nm c]) nmq = lookupFile fs nmq := by
  induction fs with
  | nil =>
    rw [List.nil_append,
      lookupFile_cons_ne [] (show (FsEntry.file nm c).name ≠ nmq from
        Ne.symm h)]
  | cons e fs ih =>
    rw [List.cons_append]
    by_cases he : e.name = nmq
    · cases e with
      | file n c2 =>
        simp only [FsEntry.name] at he
        subst he
        rw [lookupFile_cons_file_eq, lookupFile_cons_file_eq]
      | dir n files =>
        rw [lookupFile_cons_dir, lookupFile_cons_dir]
        exact ih
    · rw [lookupFile_cons_ne _ he, lookupFile_cons_ne _ he]
      exact ih

theorem lookupFile_writeFile_ne (fs : List FsEntry) {nm nmq : String}
    (c : FileContent) (h : nmq ≠ nm) :
    lookupFile (writeFile fs nm c) nmq = lookupFile fs nmq := by
  unfold writeFile
  split
  · exact lookupFile_map_preserve nm nmq c h fs
  · exact lookupFile_append_file_ne nm nmq c h fs

theorem lookupFile_removeDirs (names : List String) (nm : String)
    (fs : List FsEntry) :
    lookupFile (removeDirs fs names) nm = lookupFile fs nm := by
  induction fs with
  | nil => rfl
  | cons e fs ih =>
    cases e with
    | file n c =>
      have hkeep : removeDirs (FsEntry.file n c :: fs) names =
          FsEntry.file n c :: removeDirs fs names := by
        simp [removeDirs, List.filter_cons, FsEntry.isDir]
      rw [hkeep]
      by_cases hn : n = nm
      · subst hn
        rw [lookupFile_cons_file_eq, lookupFile_cons_file_eq]
      · rw [lookupFile_cons_ne _ (show (FsEntry.file n c).name ≠ nm from hn),
          lookupFile_cons_ne _ (show (FsEntry.file n c).name ≠ nm from hn)]
        exact ih
    | dir n files =>
      have hstep : lookupFile (removeDirs (FsEntry.dir n files :: fs) names) nm =
          lookupFile (removeDirs fs names) nm := by
        simp only [removeDirs, List.filter_cons]
        split
        · exact lookupFile_cons_dir n files _ nm
        · rfl
      rw [hstep, ih, lookupFile_cons_dir]

theorem mem_writeFile {fs : List FsEntry} {nm : String} {c : FileContent}
    {e : FsEntry} (h : e ∈ writeFile fs nm c) :
    e = FsEntry.file nm c ∨ e ∈ fs := by
  unfold writeFile at h
  split at h
  · rcases List.mem_map.1 h with ⟨a, ha, rfl⟩
    by_cases han : a.name = nm
    · left
      rw [if_pos han]
    · right
      rw [if_neg han]
      exact ha
  · rcases List.mem_append.1 h with h2 | h2
    · right
      exact h2
    · left
      simpa using h2

theorem mem_listDirs_of_dir {fs : List FsEntry} {n : String}
    {files : List (String × String)} (h : FsEntry.dir n files ∈ fs) :
    (n, files) ∈ listDirs fs :=
  List.mem_filterMap.2 ⟨FsEntry.dir n files, h, rfl⟩

theorem isDir_false_of_mem_cleanup (fs : List FsEntry) (nm : String)
    (c : FileContent) :
    ∀ e ∈ removeDirs (writeFile fs nm c) ((listDirs fs).map Prod.fst),
      e.isDir = false := by
  intro e he
  rcases List.mem_filter.1 he with ⟨he1, hp⟩
  rw [decide_eq_true_eq] at hp
  cases e with
  | file n c2 => rfl
  | dir n files =>
    exfalso
    apply hp
    refine ⟨rfl, ?_⟩
    rcases mem_writeFile he1 with h2 | h2
    · exact absurd h2 (by intro hc; cases hc)
    · exact List.mem_map.2 ⟨(n, files), mem_listDirs_of_dir h2, rfl⟩

theorem mem_zipit_of_mem_dir {dirs : List (String × List (String × String))}
    {d : String × List (String × String)} (hd : d ∈ dirs)
    {f : String × String} (hf : f ∈ d.2) :
    (d.1 ++ "/" ++ f.1, f.2) ∈ zipit dirs :=
  List.mem_flatMap.2 ⟨d, hd, List.mem_map.2 ⟨f, hf, rfl⟩⟩

theorem listDirs_copytree (fs : List FsEntry) (nm : String)
    (files : List (String × String)) :
    listDirs (copytree fs nm files) = listDirs fs ++ [(nm, files)] := by
  simp [listDirs, copytree, List.filterMap_append]

/-! ## Claims about the adaptive rules -/

/-- C3: `_init_reward` returns `REWARD_AMOUNT` unchanged when
`ADAPTIVE_REWARD` is false; `AR_INIT_VALUE` when `ADAPTIVE_REWARD` is true
and no previous-session record exists; and otherwise the previous session's
final record's `reward_valve_time` divided by its `reward_calibration`. -/
theorem init_reward_spec (p : AdaptiveParams) :
    (p.ADAPTIVE_REWARD = false → init_reward p = p.REWARD_AMOUNT) ∧
    (p.ADAPTIVE_REWARD = true → p.LAST_TRIAL_DATA = none →
      init_reward p = p.AR_INIT_VALUE) ∧
    (∀ t, p.ADAPTIVE_REWARD = true → p.LAST_TRIAL_DATA = some t →
      init_reward p = t.reward_valve_time / t.reward_calibration) := by
  refine ⟨?_, ?_, ?_⟩
  · intro h
    simp [init_reward, h]
  · intro h hl
    simp [init_reward, h, hl]
  · intro t h hl
    simp [init_reward, h, hl]

/-- Witness for C3: the non-adaptive branch at a concrete parameter set. -/
theorem init_reward_spec_witness :
    init_reward ⟨false, 5, 4, false, 1, 1, 1, 1, none⟩ = 5 :=
  (init_reward_spec ⟨false, 5, 4, false, 1, 1, 1, 1, none⟩).1 rfl

/-- C4: `_init_stim_gain` returns `STIM_GAIN` unchanged when `ADAPTIVE_GAIN`
is false; with `ADAPTIVE_GAIN` true it returns `AG_MIN_VALUE` if a
previous-session record exists with `trial_num` at least 200, and
`AG_INIT_VALUE` in every other case, including when no record exists. -/
theorem init_stim_gain_spec (p : AdaptiveParams) :
    (p.ADAPTIVE_GAIN = false → init_stim_gain p = p.STIM_GAIN) ∧
    (∀ t, p.ADAPTIVE_GAIN = true → p.LAST_TRIAL_DATA = some t →
      200 ≤ t.trial_num → init_stim_gain p = p.AG_MIN_VALUE) ∧
    (∀ t, p.ADAPTIVE_GAIN = true → p.LAST_TRIAL_DATA = some t →
      t.trial_num < 200 → init_stim_gain p = p.AG_INIT_VALUE) ∧
    (p.ADAPTIVE_GAIN = true → p.LAST_TRIAL_DATA = none →
      init_stim_gain p = p.AG_INIT_VALUE) := by
  refine ⟨?_, ?_, ?_, ?_⟩
  · intro h
    simp [init_stim_gain, h]
  · intro t h hl ht
    simp [init_stim_gain, h, hl, ht]
  · intro t h hl ht
    have : ¬ (200 ≤ t.trial_num) := by omega
    simp [init_stim_gain, h, hl, this]
  · intro h hl
    simp [init_stim_gain, h, hl]

/-- Witness for C4: the adaptive branch with a 250-trial previous record. -/
theorem init_stim_gain_spec_witness :
    init_stim_gain ⟨false, 5, 4, true, 8, 2, 6, 1, some ⟨250, 1, 1⟩⟩ = 2 :=
  (init_stim_gain_spec ⟨false, 5, 4, true, 8, 2, 6, 1, some ⟨250, 1, 1⟩⟩).2.1
    ⟨250, 1, 1⟩ rfl rfl (by decide)

/-! ## Claim about the session order bookkeeping -/

/-- C9: `load_session_order_idx` returns the freshly drawn order paired with
index 0 whenever the previous settings are absent, lack the key
`SESSION_ORDER`, or map it to `None`; otherwise it returns the previous
`SESSION_ORDER` unchanged paired with the previous `SESSION_IDX` plus 1. -/
theorem load_session_order_idx_spec (draw : List ℕ)
    (last : Option LastSettings) :
    (last = none → load_session_order_idx draw last = (draw, 0)) ∧
    (∀ s, last = some s → s.SESSION_ORDER = none →
      load_session_order_idx draw last = (draw, 0)) ∧
    (∀ s, last = some s → s.SESSION_ORDER = some none →
      load_session_order_idx draw last = (draw, 0)) ∧
    (∀ s order, last = some s → s.SESSION_ORDER = some (some order) →
      load_session_order_idx draw last = (order, s.SESSION_IDX + 1)) := by
  refine ⟨?_, ?_, ?_, ?_⟩
  · intro h
    simp [load_session_order_idx, h]
  · intro s h hs
    simp [load_session_order_idx, h, hs]
  · intro s h hs
    simp [load_session_order_idx, h, hs]
  · intro s order h hs
    simp [load_session_order_idx, h, hs]

/-- Witness for C9: a previous session with `SESSION_ORDER = [2, 0, 1]` and
`SESSION_IDX = 4` yields `([2, 0, 1], 5)`. -/
theorem load_session_order_idx_spec_witness :
    load_session_order_idx [0, 1, 2] (some ⟨some (some [2, 0, 1]), 4⟩) =
      ([2, 0, 1], 5) :=
  (load_session_order_idx_spec [0, 1, 2]
    (some ⟨some (some [2, 0, 1]), 4⟩)).2.2.2 ⟨some (some [2, 0, 1]), 4⟩
    [2, 0, 1] rfl rfl

/-! ## Claim about the settings-file assert -/

/-- C7 counterexample: with nonempty prior content (here one previous
settings document `"a"`), the appended file holds two JSON documents, the
load fails, and the assert of `save_session_settings` does not hold; the
claim asserts it holds for any prior content. -/
theorem save_session_settings_assert_counterexample :
    ¬ save_session_settings_assertHolds ["a"] "b" := by
  simp [save_session_settings_assertHolds, save_session_settings_write,
    load_settings_file]

/-- C7 (amended): when the settings file is empty before the call, the
settings loaded back equal the document just saved, so the assert holds. -/
theorem save_session_settings_assert_empty (doc : String) :
    save_session_settings_assertHolds [] doc := rfl

/-- Witness for the amended C7 at a concrete document. -/
theorem save_session_settings_assert_empty_witness :
    save_session_settings_assertHolds [] "settings" :=
  save_session_settings_assert_empty "settings"

/-! ## Claim about the pybpod user-settings deserialization -/

/-- C8: both deserializers raise `IOError` if and only if the parsed
`PYBPOD_SUBJECTS` list does not contain exactly one element (including zero
subjects), and on success `PYBPOD_SUBJECTS` has been replaced by that single
parsed subject value; the session method computes the same result as the
module-level function. -/
theorem deserialize_pybpod_user_settings_spec {α : Type} (loads : String → α)
    (sph : UserSettings) :
    (deserialize_pybpod_user_settings loads sph = Except.error () ↔
      (parsedSubjects loads sph.PYBPOD_SUBJECTS).length ≠ 1) ∧
    (∀ r, deserialize_pybpod_user_settings loads sph = Except.ok r →
      parsedSubjects loads sph.PYBPOD_SUBJECTS = [r.PYBPOD_SUBJECTS]) ∧
    deserialize_session_user_settings loads sph =
      deserialize_pybpod_user_settings loads sph := by
  rcases h : parsedSubjects loads sph.PYBPOD_SUBJECTS with - | ⟨x, - | ⟨y, rest⟩⟩
  · refine ⟨?_, ?_, ?_⟩
    · simp [deserialize_pybpod_user_settings, h]
    · intro r hr
      simp [deserialize_pybpod_user_settings, h] at hr
    · simp [deserialize_pybpod_user_settings,
        deserialize_session_user_settings, h]
  · refine ⟨?_, ?_, ?_⟩
    · simp [deserialize_pybpod_user_settings, h]
    · intro r hr
      simp [deserialize_pybpod_user_settings, h] at hr
      simp [← hr]
    · simp [deserialize_pybpod_user_settings,
        deserialize_session_user_settings, h]
  · refine ⟨?_, ?_, ?_⟩
    · simp [deserialize_pybpod_user_settings, h]
    · intro r hr
      simp [deserialize_pybpod_user_settings, h] at hr
    · simp [deserialize_pybpod_user_settings,
        deserialize_session_user_settings, h]

/-- Witness for C8: with zero subjects the deserializer raises `IOError`. -/
theorem deserialize_pybpod_user_settings_spec_witness :
    deserialize_pybpod_user_settings (fun s : String => s) ⟨"c", "u", [], "x"⟩ =
      Except.error () :=
  (deserialize_pybpod_user_settings_spec (fun s : String => s)
    ⟨"c", "u", [], "x"⟩).1.mpr (by simp [parsedSubjects])

/-! ## Claims about the declared state machines -/

/-- C1 counterexample: at concrete trial parameters the passive task's
valve-click machine has a single state, so not every declared machine has
between 2 and 5 states (its sole condition is `Tup`, but the bpod-sound
machine's sole condition is `BNC2Low` besides). -/
theorem declared_state_machines_counterexample :
    ¬ ∀ m ∈ declared_state_machines ⟨1, 1, 1, ("SoftCode", 1)⟩ 1 1,
        twoToFiveAllTup m := by
  intro h
  have hv := h (do_valve_click_sma 1) (by simp [declared_state_machines])
  have h1 : (do_valve_click_sma 1).length = 1 := rfl
  have h2 := hv.1.1
  omega

/-- C1 (amended): every state machine declared by the task scripts has
between 1 and 5 named states; every state-change condition is the
timer-expiry event `Tup`, except the passive task's single-state sound
machine, whose sole condition is keyed by `BNC2Low`. -/
theorem declared_state_machines_amended (tph : TrialParams)
    (reward_valve_time : ℚ) (sound_msg : ℤ) :
    (∀ m ∈ declared_state_machines tph reward_valve_time sound_msg,
      1 ≤ m.length ∧ m.length ≤ 5) ∧
    (∀ s ∈ habituation_sma tph,
      ∀ c ∈ s.state_change_conditions, c.1 = "Tup") ∧
    (∀ s ∈ do_valve_click_sma reward_valve_time,
      ∀ c ∈ s.state_change_conditions, c.1 = "Tup") ∧
    (do_bpod_sound_sma sound_msg).map SmaState.state_change_conditions =
      [[("BNC2Low", "exit")]] := by
  refine ⟨?_, ?_, ?_, rfl⟩
  · intro m hm
    simp [declared_state_machines] at hm
    rcases hm with rfl | rfl | rfl <;> simp [habituation_sma,
      do_valve_click_sma, do_bpod_sound_sma]
  · intro s hs c hc
    simp [habituation_sma] at hs
    rcases hs with rfl | rfl | rfl | rfl | rfl <;> simp_all
  · intro s hs c hc
    simp [do_valve_click_sma] at hs
    subst hs
    simp_all

/-- Witness for the amended C1: the valve-click machine at a concrete
reward time has between 1 and 5 states. -/
theorem declared_state_machines_amended_witness :
    1 ≤ (do_valve_click_sma 1).length ∧ (do_valve_click_sma 1).length ≤ 5 :=
  (declared_state_machines_amended ⟨1, 1, 1, ("SoftCode", 1)⟩ 1 1).1
    (do_valve_click_sma 1) (by simp [declared_state_machines])

/-- C2: for every trial index `i` from 1 to `NTRIALS`, the habituation main
loop's `i`-th iteration builds a fresh machine from that trial's parameters,
sends it to the device and then runs that same machine, and the machine's
states are, in order, `trial_start`, `stim_on`, `stim_center`, `reward`,
`iti`, each with a single `Tup` transition to the next state and `iti`
transitioning to `exit`. -/
theorem habituation_main_loop_spec (ntrials : ℕ) (tph_for : ℕ → TrialParams)
    (i : ℕ) (h1 : 1 ≤ i) (h2 : i ≤ ntrials) :
    (habituation_main_loop ntrials tph_for)[i - 1]? =
      some [BpodOp.send_state_machine (habituation_sma (tph_for (i - 1))),
            BpodOp.run_state_machine (habituation_sma (tph_for (i - 1)))] ∧
    (habituation_sma (tph_for (i - 1))).map SmaState.state_name =
      ["trial_start", "stim_on", "stim_center", "reward", "iti"] ∧
    (habituation_sma (tph_for (i - 1))).map SmaState.state_change_conditions =
      [[("Tup", "stim_on")], [("Tup", "stim_center")], [("Tup", "reward")],
       [("Tup", "iti")], [("Tup", "exit")]] := by
  refine ⟨?_, rfl, rfl⟩
  have hi : i - 1 < ntrials := by omega
  simp [habituation_main_loop, habituation_trial, hi]

/-- Witness for C2: trial 2 of a 3-trial session with constant trial
parameters. -/
theorem habituation_main_loop_spec_witness :
    (habituation_main_loop 3 (fun _ => ⟨1, 1, 1, ("SoftCode", 1)⟩))[1]? =
      some [BpodOp.send_state_machine
              (habituation_sma ⟨1, 1, 1, ("SoftCode", 1)⟩),
            BpodOp.run_state_machine
              (habituation_sma ⟨1, 1, 1, ("SoftCode", 1)⟩)] := by
  have h := habituation_main_loop_spec 3 (fun _ => ⟨1, 1, 1, ("SoftCode", 1)⟩)
    2 (by decide) (by decide)
  simpa using h.1

/-! ## Claim about the rotary encoder -/

/-- C10: for every threshold list and nonzero gain (and `np.pi` an arbitrary
nonzero rational), `MyRotaryEncoder.__init__` sets `SET_THRESHOLDS` to the
input list scaled entrywise by `360 / (62 * pi * gain)`, and
`ENABLE_THRESHOLDS` to a list of length `max 8 (input length)` whose entry
`i` is `true` exactly when `SET_THRESHOLDS[i]` is nonzero, with every
padding entry beyond the input length `false`. -/
theorem MyRotaryEncoder_init_spec (pi gain : ℚ) (thresholds : List ℚ)
    (hpi : pi ≠ 0) (hg : gain ≠ 0) :
    ((MyRotaryEncoder.init pi thresholds gain).SET_THRESHOLDS.length =
      thresholds.length) ∧
    (∀ i, i < thresholds.length →
      (MyRotaryEncoder.init pi thresholds gain).SET_THRESHOLDS[i]? =
        (thresholds[i]?).map (fun x => x * (360 / (62 * pi * gain)))) ∧
    ((MyRotaryEncoder.init pi thresholds gain).ENABLE_THRESHOLDS.length =
      max 8 thresholds.length) ∧
    (∀ i, i < thresholds.length →
      ((MyRotaryEncoder.init pi thresholds gain).ENABLE_THRESHOLDS[i]? =
          some true ↔
        (MyRotaryEncoder.init pi thresholds gain).SET_THRESHOLDS[i]? ≠
          some 0)) ∧
    (∀ i, thresholds.length ≤ i → i < 8 →
      (MyRotaryEncoder.init pi thresholds gain).ENABLE_THRESHOLDS[i]? =
        some false) := by
  have hfac : (1 : ℚ) / (31 * 2 * pi / 360 * gain) = 360 / (62 * pi * gain) := by
    rw [div_eq_div_iff]
    · ring
    · intro hc
      rcases mul_eq_zero.1 hc with hc | hc
      · have : pi = 0 := by linarith [mul_eq_zero.1 (by linarith : 31 * 2 * pi = 0)]
        exact hpi this
      · exact hg hc
    · intro hc
      rcases mul_eq_zero.1 hc with hc | hc
      · rcases mul_eq_zero.1 hc with hc | hc
        · norm_num at hc
        · exact hpi hc
      · exact hg hc
  refine ⟨?_, ?_, ?_, ?_, ?_⟩
  · simp [MyRotaryEncoder.init]
  · intro i hi
    simp [MyRotaryEncoder.init, hfac]
  · simp [MyRotaryEncoder.init, padEnable]
    omega
  · intro i hi
    have hi' : i < (thresholds.map
        (fun x => x * (1 / (31 * 2 * pi / 360 * gain)))).length := by
      simpa using hi
    simp only [MyRotaryEncoder.init, padEnable]
    rw [List.getElem?_append_left (by simpa using hi')]
    rw [List.getElem?_map, List.getElem?_map]
    rw [List.getElem?_eq_getElem hi]
    simp only [Option.map_some']
    have hf : (1 : ℚ) / (31 * 2 * pi / 360 * gain) ≠ 0 := by
      rw [hfac]
      apply div_ne_zero (by norm_num)
      intro hc
      rcases mul_eq_zero.1 hc with hc | hc
      · rcases mul_eq_zero.1 hc with hc | hc
        · norm_num at hc
        · exact hpi hc
      · exact hg hc
    by_cases ht : thresholds[i] = 0
    · simp [ht]
    · have hne : thresholds[i] * (1 / (31 * 2 * pi / 360 * gain)) ≠ 0 :=
        mul_ne_zero ht hf
      simp [hne]
  · intro i hil hi8
    have hlen : (thresholds.map
        (fun x => x * (1 / (31 * 2 * pi / 360 * gain)))).length ≤ i := by
      simpa using hil
    simp only [MyRotaryEncoder.init, padEnable]
    rw [List.getElem?_append_right (by simpa using hlen)]
    rw [List.getElem?_replicate]
    simp only [List.length_map] at hlen ⊢
    have : i - thresholds.length < 8 - thresholds.length := by omega
    simp [this]

/-- Witness for C10: a concrete encoder with thresholds `[-35, 35, 0]`,
`pi = 3`, gain `2`. -/
theorem MyRotaryEncoder_init_spec_witness :
    (MyRotaryEncoder.init 3 [-35, 35, 0] 2).SET_THRESHOLDS.length = 3 ∧
    (MyRotaryEncoder.init 3 [-35, 35, 0] 2).ENABLE_THRESHOLDS.length = 8 := by
  have h := MyRotaryEncoder_init_spec 3 2 [-35, 35, 0] (by decide) (by decide)
  exact ⟨h.1, h.2.2.1.trans (by decide)⟩

/-! ## Claims about the code-archival pipeline -/

/-- C5: `save_task_code` zips the files of every subdirectory of the session
raw-data folder into `_iblrig_taskCodeFiles.raw.zip` and removes every
subdirectory; `_save_task_code` first copies the task code folder in, then
zips every subdirectory (the copied one included) into
`_iblrig_codeFiles.raw.zip` and removes them all.  The hypotheses restrict
to folders on which the Python code runs without raising: no subdirectory
carries the archive name, and the copy destination does not yet exist. -/
theorem save_task_code_spec (fs : List FsEntry)
    (_hz : ∀ e ∈ fs, e.isDir = true → e.name ≠ taskCodeZipName)
    (fs2 : List FsEntry) (protocol : String)
    (taskFiles : List (String × String))
    (_hz2 : ∀ e ∈ fs2, e.isDir = true → e.name ≠ codeFilesZipName)
    (_hp : protocol ≠ codeFilesZipName)
    (_hpn : ∀ e ∈ fs2, e.name ≠ protocol) :
    lookupFile (save_task_code fs) taskCodeZipName =
      some (FileContent.zipData (zipit (listDirs fs))) ∧
    (∀ d ∈ listDirs fs, ∀ f ∈ d.2,
      (d.1 ++ "/" ++ f.1, f.2) ∈ zipit (listDirs fs)) ∧
    (∀ e ∈ save_task_code fs, e.isDir = false) ∧
    lookupFile (sph_save_task_code protocol taskFiles fs2) codeFilesZipName =
      some (FileContent.zipData
        (zipit (listDirs fs2 ++ [(protocol, taskFiles)]))) ∧
    (∀ d ∈ listDirs fs2, ∀ f ∈ d.2,
      (d.1 ++ "/" ++ f.1, f.2) ∈
        zipit (listDirs fs2 ++ [(protocol, taskFiles)])) ∧
    (∀ f ∈ taskFiles,
      (protocol ++ "/" ++ f.1, f.2) ∈
        zipit (listDirs fs2 ++ [(protocol, taskFiles)])) ∧
    (∀ e ∈ sph_save_task_code protocol taskFiles fs2, e.isDir = false) := by
  have hsave : save_task_code fs = removeDirs
      (writeFile fs taskCodeZipName
        (FileContent.zipData (zipit (listDirs fs))))
      ((listDirs fs).map Prod.fst) := rfl
  have hsph : sph_save_task_code protocol taskFiles fs2 = removeDirs
      (writeFile (copytree fs2 protocol taskFiles) codeFilesZipName
        (FileContent.zipData
          (zipit (listDirs (copytree fs2 protocol taskFiles)))))
      ((listDirs (copytree fs2 protocol taskFiles)).map Prod.fst) := rfl
  refine ⟨?_, ?_, ?_, ?_, ?_, ?_, ?_⟩
  · rw [hsave, lookupFile_removeDirs, lookupFile_writeFile_self]
  · intro d hd f hf
    exact mem_zipit_of_mem_dir hd hf
  · rw [hsave]
    exact isDir_false_of_mem_cleanup fs taskCodeZipName _
  · rw [hsph, lookupFile_removeDirs, lookupFile_writeFile_self,
      listDirs_copytree]
  · intro d hd f hf
    exact mem_zipit_of_mem_dir (List.mem_append_left _ hd) hf
  · intro f hf
    exact @mem_zipit_of_mem_dir (listDirs fs2 ++ [(protocol, taskFiles)])
      (protocol, taskFiles)
      (List.mem_append_right _ (List.mem_singleton.2 rfl)) f hf
  · rw [hsph]
    exact isDir_false_of_mem_cleanup _ codeFilesZipName _

/-- Witness for C5: archiving a folder holding one task-code subdirectory
produces the zip with that subdirectory's file. -/
theorem save_task_code_spec_witness :
    lookupFile (save_task_code [FsEntry.dir "proto" [("t.py", "code")]])
        taskCodeZipName =
      some (FileContent.zipData [("proto/t.py", "code")]) := by
  have h := save_task_code_spec [FsEntry.dir "proto" [("t.py", "code")]]
    (by decide) [] "proto" [("t.py", "code")] (by decide) (by decide)
    (by decide)
  exact h.1

/-- C6 counterexample: when the session raw-data folder already holds a plain
file named `_iblrig_taskCodeFiles.raw.zip` (for instance from an earlier run),
`zipfile.ZipFile(zip_name, 'w')` truncates it, so that pre-existing plain file
is changed by `save_task_code`, contradicting the claim that every plain file
present before the call is unchanged. -/
theorem save_task_code_overwrite_counterexample :
    lookupFile [FsEntry.file taskCodeZipName (FileContent.text "old"),
        FsEntry.dir "taskcode" [("a.py", "x")]] taskCodeZipName =
      some (FileContent.text "old") ∧
    lookupFile (save_task_code
        [FsEntry.file taskCodeZipName (FileContent.text "old"),
         FsEntry.dir "taskcode" [("a.py", "x")]]) taskCodeZipName ≠
      some (FileContent.text "old") := by
  constructor
  · rfl
  · have h1 : lookupFile (save_task_code
        [FsEntry.file taskCodeZipName (FileContent.text "old"),
         FsEntry.dir "taskcode" [("a.py", "x")]]) taskCodeZipName =
        some (FileContent.zipData [("taskcode/a.py", "x")]) := rfl
    rw [h1]
    intro hc
    exact FileContent.noConfusion (Option.some.inj hc)

/-- C6 (amended): `save_task_code` leaves every plain file whose name is not
`_iblrig_taskCodeFiles.raw.zip` unchanged, and every entry of the resulting
folder is either the zip archive or a pre-existing non-directory entry; the
only entry it may add or overwrite is the zip archive itself. -/
theorem save_task_code_frame (fs : List FsEntry)
    (_hz : ∀ e ∈ fs, e.isDir = true → e.name ≠ taskCodeZipName) :
    (∀ nm, nm ≠ taskCodeZipName →
      lookupFile (save_task_code fs) nm = lookupFile fs nm) ∧
    (∀ e ∈ save_task_code fs,
      e.name = taskCodeZipName ∨ (e ∈ fs ∧ e.isDir = false)) := by
  have hsave : save_task_code fs = removeDirs
      (writeFile fs taskCodeZipName
        (FileContent.zipData (zipit (listDirs fs))))
      ((listDirs fs).map Prod.fst) := rfl
  constructor
  · intro nm hnm
    rw [hsave, lookupFile_removeDirs, lookupFile_writeFile_ne _ _ hnm]
  · intro e he
    rw [hsave] at he
    rcases List.mem_filter.1 he with ⟨he1, hp⟩
    rw [decide_eq_true_eq] at hp
    rcases mem_writeFile he1 with h2 | h2
    · left
      rw [h2]
      rfl
    · right
      refine ⟨h2, ?_⟩
      cases e with
      | file n c2 => rfl
      | dir n files =>
        exfalso
        apply hp
        exact ⟨rfl, List.mem_map.2 ⟨(n, files), mem_listDirs_of_dir h2, rfl⟩⟩

/-- Witness for the amended C6: a pre-existing plain data file with a
different name is untouched by the archival. -/
theorem save_task_code_frame_witness :
    lookupFile (save_task_code
        [FsEntry.file "data.bin" (FileContent.text "d"),
         FsEntry.dir "code" [("a.py", "b")]]) "data.bin" =
      lookupFile [FsEntry.file "data.bin" (FileContent.text "d"),
        FsEntry.dir "code" [("a.py", "b")]] "data.bin" :=
  (save_task_code_frame [FsEntry.file "data.bin" (FileContent.text "d"),
      FsEntry.dir "code" [("a.py", "b")]] (by decide)).1 "data.bin" (by decide)

end Iblrig
